import Mathlib

/-
Verification development for tinyvm (src/main.rs): a stack-based virtual
machine with a line-oriented assembler.  The active interpreter in the source
executes a packed byte encoding of the instruction list through a table of
per-opcode handlers (JUMP_TABLE); the assembler resolves label and procedure
names to absolute byte positions.

Shallow embedding conventions:
* Rust `isize` stack values are modelled as `Int`, with the arithmetic
  handlers performing the `isize` range checks: division faults on a zero
  divisor and on `isize::MIN / -1` (both unconditional panics in Rust);
  Add/Sub/Mul/Incr/Decr fault when the exact result leaves the `isize`
  range, as in a debug build (`cargo run`'s default profile) - a release
  build wraps there instead, and no claim below depends on behaviour at
  such out-of-range results.  The 8-byte big-endian operand encoding
  produced by `to_code` is modelled exactly (two's complement, byte lists).
* The operand stack mirrors `Vec<isize>`: index 0 is the bottom, pushes
  append on the right (`l ++ [v]`), `pop`/`peek` act on `getLast?`.
  The call stack mirrors `Vec<StackFrame>` the same way.
* Every Rust `panic!`/`expect`/`unwrap`/index-out-of-bounds is a `fault`.
* Output is modelled as a list of abstract items (decimal print, character
  print, whole-stack debug print), in emission order.
-/

namespace TinyVm

/-- Tagged instructions, as in `enum Instruction` of main.rs.  Operand-
carrying instructions hold a signed literal (Push) or a position/index. -/
inductive Instruction where
  | Push (d : Int)
  | Pop
  | Add
  | Sub
  | Incr
  | Decr
  | Mul
  | Div
  | Jump (p : Nat)
  | JE (p : Nat)
  | JNE (p : Nat)
  | JGT (p : Nat)
  | JLT (p : Nat)
  | JGE (p : Nat)
  | JLE (p : Nat)
  | Get (p : Nat)
  | Set (p : Nat)
  | GetArg (p : Nat)
  | SetArg (p : Nat)
  | Noop
  | Print
  | PrintC
  | PrintStack
  | Call (p : Nat)
  | Ret
  deriving DecidableEq, Repr

/-- A call-stack frame: `struct StackFrame { stack_offset, ip }`. -/
structure StackFrame where
  stack_offset : Nat
  ip : Nat
  deriving DecidableEq, Repr

/-- One item written to standard output. -/
inductive OutItem where
  | int (v : Int)        -- Print: decimal rendering of the peeked value
  | chr (b : Nat)        -- PrintC: the peeked value `as u8 as char`
  | stk (s : List Int)   -- PrintStack: debug rendering of the whole stack
  deriving DecidableEq, Repr

/-- Execution state of the byte-code engine: instruction pointer, operand
stack (`Stack`), call stack (`CallStack`), and output written so far. -/
structure VMState where
  ip : Nat
  stack : List Int
  callStack : List StackFrame
  out : List OutItem
  deriving DecidableEq, Repr

/-- Result of one dispatch step. -/
inductive StepResult where
  | cont (s : VMState)        -- tail-invokes the next handler
  | halt (s : VMState)        -- the End handler: returns, unwinding the chain
  | fault (out : List OutItem) -- a Rust panic; `out` is the output printed so far
  deriving DecidableEq, Repr

/-- Result of running the engine with a step budget. -/
inductive RunResult where
  | halted (s : VMState)
  | fault (out : List OutItem)
  | timeout
  deriving DecidableEq, Repr

/-! ## Big-endian 8-byte operand encoding (`to_be_bytes` / `from_be_bytes`) -/

/-- `usize::to_be_bytes`: the 8 big-endian bytes of `n mod 2^64`. -/
def toBeNat (n : Nat) : List Nat :=
  let m := n % 18446744073709551616
  [m / 72057594037927936 % 256, m / 281474976710656 % 256,
   m / 1099511627776 % 256, m / 4294967296 % 256,
   m / 16777216 % 256, m / 65536 % 256, m / 256 % 256, m % 256]

/-- `isize::to_be_bytes`: two's-complement encoding of `d`. -/
def toBeInt (d : Int) : List Nat :=
  toBeNat (d % 18446744073709551616).toNat

/-- `usize::from_be_bytes` on an 8-byte list. -/
def fromBeNat (bs : List Nat) : Nat :=
  bs.foldl (fun acc b => acc * 256 + b) 0

/-- `isize::from_be_bytes`: decode two's complement. -/
def fromBeInt (bs : List Nat) : Int :=
  let n := fromBeNat bs
  if n < 9223372036854775808 then (n : Int) else (n : Int) - 18446744073709551616

/-! ## `to_code`: packing the instruction list into bytes

Discriminants follow `enum ByteInstr`:
Push 0, Pop 1, Add 2, Sub 3, Incr 4, Decr 5, Mul 6, Div 7, Jump 8, JE 9,
JNE 10, JGT 11, JLT 12, JGE 13, JLE 14, Get 15, Set 16, GetArg 17, SetArg 18,
Noop 19, Print 20, PrintC 21, PrintStack 22, Call 23, Ret 24, End 25. -/

/-- The bytes `to_code` emits for one instruction: the discriminant byte,
followed by the 8-byte big-endian operand when the opcode carries one. -/
def instrBytes : Instruction → List Nat
  | .Push d => 0 :: toBeInt d
  | .Pop => [1]
  | .Add => [2]
  | .Sub => [3]
  | .Incr => [4]
  | .Decr => [5]
  | .Mul => [6]
  | .Div => [7]
  | .Jump p => 8 :: toBeNat p
  | .JE p => 9 :: toBeNat p
  | .JNE p => 10 :: toBeNat p
  | .JGT p => 11 :: toBeNat p
  | .JLT p => 12 :: toBeNat p
  | .JGE p => 13 :: toBeNat p
  | .JLE p => 14 :: toBeNat p
  | .Get p => 15 :: toBeNat p
  | .Set p => 16 :: toBeNat p
  | .GetArg p => 17 :: toBeNat p
  | .SetArg p => 18 :: toBeNat p
  | .Noop => [19]
  | .Print => [20]
  | .PrintC => [21]
  | .PrintStack => [22]
  | .Call p => 23 :: toBeNat p
  | .Ret => [24]

/-- `to_code`: concatenate the per-instruction byte sequences. -/
def toCode (instrs : List Instruction) : List Nat :=
  (instrs.map instrBytes).flatten

/-! ## The byte-code execution engine (`JUMP_TABLE` + `interpret`) -/

/-- Read the 8 operand bytes `code[i..i+8]`; `none` models the
out-of-bounds panic of `copy_from_slice`. -/
def readBytes8 (code : List Nat) (i : Nat) : Option (List Nat) :=
  match code[i]?, code[i+1]?, code[i+2]?, code[i+3]?,
        code[i+4]?, code[i+5]?, code[i+6]?, code[i+7]? with
  | some b0, some b1, some b2, some b3, some b4, some b5, some b6, some b7 =>
      some [b0, b1, b2, b3, b4, b5, b6, b7]
  | _, _, _, _, _, _, _, _ => none

/-- The handler for discriminant `op`, mirroring the closures of
`JUMP_TABLE` in order.  Stack `pop`/`peek` act on the right end of the list
(the top); `Get`/`Set` index the operand stack **absolutely**, exactly as the
active handlers do (they do not consult the frame offset), while
`GetArg`/`SetArg` use the innermost frame's `stack_offset`.  Arithmetic
performs the `isize` overflow checks: `b / a` faults when `a = 0` and when
`b = isize::MIN, a = -1` (unconditional panics); the other arithmetic arms
fault when the exact result leaves the `isize` range (debug-build checked
arithmetic; a release build would wrap). -/
def execOp (code : List Nat) (op : Nat) (s : VMState) : StepResult :=
  match op with
  | 0 => -- Push
    match readBytes8 code (s.ip + 1) with
    | none => .fault s.out
    | some bs => .cont { s with stack := s.stack ++ [fromBeInt bs], ip := s.ip + 9 }
  | 1 => -- Pop
    match s.stack.getLast? with
    | none => .fault s.out
    | some _ => .cont { s with stack := s.stack.dropLast, ip := s.ip + 1 }
  | 2 => -- Add: let (a, b) = (pop, pop); push (a + b)
    match s.stack.getLast?, s.stack.dropLast.getLast? with
    | some a, some b =>
        if -9223372036854775808 ≤ a + b ∧ a + b ≤ 9223372036854775807 then
          .cont { s with stack := s.stack.dropLast.dropLast ++ [a + b], ip := s.ip + 1 }
        else .fault s.out
    | _, _ => .fault s.out
  | 3 => -- Sub: let (a, b) = (pop, pop); push (b - a)
    match s.stack.getLast?, s.stack.dropLast.getLast? with
    | some a, some b =>
        if -9223372036854775808 ≤ b - a ∧ b - a ≤ 9223372036854775807 then
          .cont { s with stack := s.stack.dropLast.dropLast ++ [b - a], ip := s.ip + 1 }
        else .fault s.out
    | _, _ => .fault s.out
  | 4 => -- Incr: *peek_mut += 1
    match s.stack.getLast? with
    | none => .fault s.out
    | some v =>
        if v + 1 ≤ 9223372036854775807 then
          .cont { s with stack := s.stack.dropLast ++ [v + 1], ip := s.ip + 1 }
        else .fault s.out
  | 5 => -- Decr: *peek_mut -= 1
    match s.stack.getLast? with
    | none => .fault s.out
    | some v =>
        if -9223372036854775808 ≤ v - 1 then
          .cont { s with stack := s.stack.dropLast ++ [v - 1], ip := s.ip + 1 }
        else .fault s.out
  | 6 => -- Mul
    match s.stack.getLast?, s.stack.dropLast.getLast? with
    | some a, some b =>
        if -9223372036854775808 ≤ a * b ∧ a * b ≤ 9223372036854775807 then
          .cont { s with stack := s.stack.dropLast.dropLast ++ [a * b], ip := s.ip + 1 }
        else .fault s.out
    | _, _ => .fault s.out
  | 7 => -- Div: push (b / a); truncates toward zero; panics on 0 and on MIN / -1
    match s.stack.getLast?, s.stack.dropLast.getLast? with
    | some a, some b =>
        if a = 0 then .fault s.out
        else if b = -9223372036854775808 ∧ a = -1 then .fault s.out
        else .cont { s with stack := s.stack.dropLast.dropLast ++ [Int.tdiv b a], ip := s.ip + 1 }
    | _, _ => .fault s.out
  | 8 => -- Jump
    match readBytes8 code (s.ip + 1) with
    | none => .fault s.out
    | some bs => .cont { s with ip := fromBeNat bs }
  | 9 => -- JE
    match readBytes8 code (s.ip + 1) with
    | none => .fault s.out
    | some bs =>
      match s.stack.getLast? with
      | none => .fault s.out
      | some v =>
        if v = 0 then .cont { s with stack := s.stack.dropLast, ip := fromBeNat bs }
        else .cont { s with ip := s.ip + 9 }
  | 10 => -- JNE
    match readBytes8 code (s.ip + 1) with
    | none => .fault s.out
    | some bs =>
      match s.stack.getLast? with
      | none => .fault s.out
      | some v =>
        if v ≠ 0 then .cont { s with stack := s.stack.dropLast, ip := fromBeNat bs }
        else .cont { s with ip := s.ip + 9 }
  | 11 => -- JGT
    match readBytes8 code (s.ip + 1) with
    | none => .fault s.out
    | some bs =>
      match s.stack.getLast? with
      | none => .fault s.out
      | some v =>
        if v > 0 then .cont { s with stack := s.stack.dropLast, ip := fromBeNat bs }
        else .cont { s with ip := s.ip + 9 }
  | 12 => -- JLT
    match readBytes8 code (s.ip + 1) with
    | none => .fault s.out
    | some bs =>
      match s.stack.getLast? with
      | none => .fault s.out
      | some v =>
        if v < 0 then .cont { s with stack := s.stack.dropLast, ip := fromBeNat bs }
        else .cont { s with ip := s.ip + 9 }
  | 13 => -- JGE
    match readBytes8 code (s.ip + 1) with
    | none => .fault s.out
    | some bs =>
      match s.stack.getLast? with
      | none => .fault s.out
      | some v =>
        if v ≥ 0 then .cont { s with stack := s.stack.dropLast, ip := fromBeNat bs }
        else .cont { s with ip := s.ip + 9 }
  | 14 => -- JLE
    match readBytes8 code (s.ip + 1) with
    | none => .fault s.out
    | some bs =>
      match s.stack.getLast? with
      | none => .fault s.out
      | some v =>
        if v ≤ 0 then .cont { s with stack := s.stack.dropLast, ip := fromBeNat bs }
        else .cont { s with ip := s.ip + 9 }
  | 15 => -- Get: push stack[i] (absolute index, as in the active handler)
    match readBytes8 code (s.ip + 1) with
    | none => .fault s.out
    | some bs =>
      match s.stack[fromBeNat bs]? with
      | none => .fault s.out
      | some v => .cont { s with stack := s.stack ++ [v], ip := s.ip + 9 }
  | 16 => -- Set: stack[i] = peek (absolute index, as in the active handler)
    match readBytes8 code (s.ip + 1) with
    | none => .fault s.out
    | some bs =>
      match s.stack.getLast? with
      | none => .fault s.out
      | some v =>
        if fromBeNat bs < s.stack.length then
          .cont { s with stack := s.stack.set (fromBeNat bs) v, ip := s.ip + 9 }
        else .fault s.out
  | 17 => -- GetArg: push stack[frame.stack_offset - 1 - i]
    match readBytes8 code (s.ip + 1) with
    | none => .fault s.out
    | some bs =>
      match s.callStack.getLast? with
      | none => .fault s.out
      | some f =>
        if f.stack_offset < 1 + fromBeNat bs then .fault s.out
        else
          match s.stack[f.stack_offset - 1 - fromBeNat bs]? with
          | none => .fault s.out
          | some v => .cont { s with stack := s.stack ++ [v], ip := s.ip + 9 }
  | 18 => -- SetArg: stack[frame.stack_offset - 1 - i] = peek
    match readBytes8 code (s.ip + 1) with
    | none => .fault s.out
    | some bs =>
      match s.callStack.getLast? with
      | none => .fault s.out
      | some f =>
        if f.stack_offset < 1 + fromBeNat bs then .fault s.out
        else
          match s.stack.getLast? with
          | none => .fault s.out
          | some v =>
            if f.stack_offset - 1 - fromBeNat bs < s.stack.length then
              .cont { s with stack := s.stack.set (f.stack_offset - 1 - fromBeNat bs) v,
                             ip := s.ip + 9 }
            else .fault s.out
  | 19 => -- Noop
    .cont { s with ip := s.ip + 1 }
  | 20 => -- Print
    match s.stack.getLast? with
    | none => .fault s.out
    | some v => .cont { s with out := s.out ++ [.int v], ip := s.ip + 1 }
  | 21 => -- PrintC: peek as u8 as char
    match s.stack.getLast? with
    | none => .fault s.out
    | some v => .cont { s with out := s.out ++ [.chr (v % 256).toNat], ip := s.ip + 1 }
  | 22 => -- PrintStack
    .cont { s with out := s.out ++ [.stk s.stack], ip := s.ip + 1 }
  | 23 => -- Call: push frame (stack.len(), ip + 9); jump
    match readBytes8 code (s.ip + 1) with
    | none => .fault s.out
    | some bs =>
        .cont { s with callStack := s.callStack ++ [⟨s.stack.length, s.ip + 9⟩],
                       ip := fromBeNat bs }
  | 24 => -- Ret: ip = call_stack.pop().unwrap().ip
    match s.callStack.getLast? with
    | none => .fault s.out
    | some f => .cont { s with callStack := s.callStack.dropLast, ip := f.ip }
  | 25 => -- End: the handler returns, unwinding the whole dispatch chain
    .halt s
  | _ => -- `get_unchecked` past the table: undefined behaviour; modelled as a fault
    .fault s.out

/-- One dispatch step: decode `code[ip]` (an out-of-range `ip` is the
indexing panic) and run its handler. -/
def step (code : List Nat) (s : VMState) : StepResult :=
  match code[s.ip]? with
  | none => .fault s.out
  | some op => execOp code op s

/-- Run the engine for at most `fuel` dispatch steps. -/
def runVM (fuel : Nat) (code : List Nat) (s : VMState) : RunResult :=
  match fuel with
  | 0 => .timeout
  | fuel + 1 =>
    match step code s with
    | .cont s' => runVM fuel code s'
    | .halt s' => .halted s'
    | .fault o => .fault o

/-- `interpret`: start at ip 0 with empty stacks and no output. -/
def interpretBytes (fuel : Nat) (code : List Nat) : RunResult :=
  runVM fuel code ⟨0, [], [], []⟩

/-! ## Tagged-instruction execution

The spec's per-opcode semantics over the tagged instruction array (the
reference decode loop kept as the commented-out `interpret` in main.rs: the
pointer is incremented before the instruction's effect is applied, the loop
halts when the pointer addresses past the end of the program, and `Get`/`Set`
address the stack relative to the innermost frame's offset, 0 without a
frame).  This is the second side of the refinement claim. -/

/-- One step of the tagged decode loop; `s.ip` is the `pointer` variable. -/
def stepT (program : List Instruction) (s : VMState) : StepResult :=
  match program[s.ip]? with
  | none => .halt s
  | some instr =>
    let ptr := s.ip + 1
    match instr with
    | .Noop => .cont { s with ip := ptr }
    | .Push d => .cont { s with stack := s.stack ++ [d], ip := ptr }
    | .Pop =>
      match s.stack.getLast? with
      | none => .fault s.out
      | some _ => .cont { s with stack := s.stack.dropLast, ip := ptr }
    | .Add =>
      match s.stack.getLast?, s.stack.dropLast.getLast? with
      | some a, some b =>
          if -9223372036854775808 ≤ a + b ∧ a + b ≤ 9223372036854775807 then
            .cont { s with stack := s.stack.dropLast.dropLast ++ [a + b], ip := ptr }
          else .fault s.out
      | _, _ => .fault s.out
    | .Sub =>
      match s.stack.getLast?, s.stack.dropLast.getLast? with
      | some a, some b =>
          if -9223372036854775808 ≤ b - a ∧ b - a ≤ 9223372036854775807 then
            .cont { s with stack := s.stack.dropLast.dropLast ++ [b - a], ip := ptr }
          else .fault s.out
      | _, _ => .fault s.out
    | .Mul =>
      match s.stack.getLast?, s.stack.dropLast.getLast? with
      | some a, some b =>
          if -9223372036854775808 ≤ a * b ∧ a * b ≤ 9223372036854775807 then
            .cont { s with stack := s.stack.dropLast.dropLast ++ [a * b], ip := ptr }
          else .fault s.out
      | _, _ => .fault s.out
    | .Div =>
      match s.stack.getLast?, s.stack.dropLast.getLast? with
      | some a, some b =>
          if a = 0 then .fault s.out
          else if b = -9223372036854775808 ∧ a = -1 then .fault s.out
          else .cont { s with stack := s.stack.dropLast.dropLast ++ [Int.tdiv b a], ip := ptr }
      | _, _ => .fault s.out
    | .Incr =>
      match s.stack.getLast? with
      | none => .fault s.out
      | some v =>
          if v + 1 ≤ 9223372036854775807 then
            .cont { s with stack := s.stack.dropLast ++ [v + 1], ip := ptr }
          else .fault s.out
    | .Decr =>
      match s.stack.getLast? with
      | none => .fault s.out
      | some v =>
          if -9223372036854775808 ≤ v - 1 then
            .cont { s with stack := s.stack.dropLast ++ [v - 1], ip := ptr }
          else .fault s.out
    | .Jump p => .cont { s with ip := p }
    | .JE p =>
      match s.stack.getLast? with
      | none => .fault s.out
      | some v =>
        if v = 0 then .cont { s with stack := s.stack.dropLast, ip := p }
        else .cont { s with ip := ptr }
    | .JNE p =>
      match s.stack.getLast? with
      | none => .fault s.out
      | some v =>
        if v ≠ 0 then .cont { s with stack := s.stack.dropLast, ip := p }
        else .cont { s with ip := ptr }
    | .JGT p =>
      match s.stack.getLast? with
      | none => .fault s.out
      | some v =>
        if v > 0 then .cont { s with stack := s.stack.dropLast, ip := p }
        else .cont { s with ip := ptr }
    | .JLT p =>
      match s.stack.getLast? with
      | none => .fault s.out
      | some v =>
        if v < 0 then .cont { s with stack := s.stack.dropLast, ip := p }
        else .cont { s with ip := ptr }
    | .JGE p =>
      match s.stack.getLast? with
      | none => .fault s.out
      | some v =>
        if v ≥ 0 then .cont { s with stack := s.stack.dropLast, ip := p }
        else .cont { s with ip := ptr }
    | .JLE p =>
      match s.stack.getLast? with
      | none => .fault s.out
      | some v =>
        if v ≤ 0 then .cont { s with stack := s.stack.dropLast, ip := p }
        else .cont { s with ip := ptr }
    | .Get i =>
      let off := (s.callStack.getLast?.map StackFrame.stack_offset).getD 0
      match s.stack[i + off]? with
      | none => .fault s.out
      | some v => .cont { s with stack := s.stack ++ [v], ip := ptr }
    | .Set i =>
      let off := (s.callStack.getLast?.map StackFrame.stack_offset).getD 0
      match s.stack.getLast? with
      | none => .fault s.out
      | some v =>
        if i + off < s.stack.length then
          .cont { s with stack := s.stack.set (i + off) v, ip := ptr }
        else .fault s.out
    | .GetArg i =>
      match s.callStack.getLast? with
      | none => .fault s.out
      | some f =>
        if f.stack_offset < 1 + i then .fault s.out
        else
          match s.stack[f.stack_offset - 1 - i]? with
          | none => .fault s.out
          | some v => .cont { s with stack := s.stack ++ [v], ip := ptr }
    | .SetArg i =>
      match s.callStack.getLast? with
      | none => .fault s.out
      | some f =>
        if f.stack_offset < 1 + i then .fault s.out
        else
          match s.stack.getLast? with
          | none => .fault s.out
          | some v =>
            if f.stack_offset - 1 - i < s.stack.length then
              .cont { s with stack := s.stack.set (f.stack_offset - 1 - i) v, ip := ptr }
            else .fault s.out
    | .Print =>
      match s.stack.getLast? with
      | none => .fault s.out
      | some v => .cont { s with out := s.out ++ [.int v], ip := ptr }
    | .PrintC =>
      match s.stack.getLast? with
      | none => .fault s.out
      | some v => .cont { s with out := s.out ++ [.chr (v % 256).toNat], ip := ptr }
    | .PrintStack => .cont { s with out := s.out ++ [.stk s.stack], ip := ptr }
    | .Call p =>
        .cont { s with callStack := s.callStack ++ [⟨s.stack.length, ptr⟩], ip := p }
    | .Ret =>
      match s.callStack.getLast? with
      | none => .fault s.out
      | some f => .cont { s with callStack := s.callStack.dropLast, ip := f.ip }

/-- Run the tagged decode loop for at most `fuel` steps. -/
def runTagged (fuel : Nat) (program : List Instruction) (s : VMState) : RunResult :=
  match fuel with
  | 0 => .timeout
  | fuel + 1 =>
    match stepT program s with
    | .cont s' => runTagged fuel program s'
    | .halt s' => .halted s'
    | .fault o => .fault o

/-- Tagged-instruction execution from the initial state. -/
def interpretTagged (fuel : Nat) (program : List Instruction) : RunResult :=
  runTagged fuel program ⟨0, [], [], []⟩

/-! ## The assembler (`main`, `parse_instruction`, `find_label`,
`find_procedures`)

A source file arrives as a list of whitespace-split token lines (the
tokenizer itself is external per the spec).  `main` filters out lines
matching `[] | ["--", ..]`, then builds the label table, the
position→byte-offset table and the procedure table from the filtered lines,
and parses each filtered line into one instruction. -/

/-- The filter `!matches!(s.as_slice(), [] | ["--", ..])` from `main`. -/
def keepLine : List String → Bool
  | [] => false
  | t :: _ => t != "--"

/-- `BTreeMap` lookup where later insertions of the same key overwrite
earlier ones (the maps are collected left to right). -/
def lookupLast {α : Type} (m : List (String × α)) (k : String) : Option α :=
  m.foldl (fun acc p => if p.1 = k then some p.2 else acc) none

/-- `find_label` applied across the filtered lines: every `label <name>`
line maps the name to its own (filtered) position. -/
def findLabels (lines : List (List String)) : List (String × Nat) :=
  lines.enum.filterMap fun p =>
    match p.2 with
    | ["label", l] => some (l, p.1)
    | _ => none

/-- The byte width one line occupies in the packed encoding, from the scan
in `main`: operand-carrying mnemonics (and `Proc`, which lowers to a jump)
take 9 bytes, everything else 1.  (`split[0]` on an empty line would panic,
but blank lines are filtered before the scan.) -/
def lineWidth : List String → Nat
  | [] => 1
  | t :: _ =>
    if t ∈ ["Push", "Jump", "JE", "JNE", "JGT", "JLT", "JGE", "JLE",
            "Get", "Set", "GetArg", "SetArg", "Call", "Proc"] then 9 else 1

/-- `line_split_map` as a list: entry `i` is the byte offset of line `i`,
i.e. the running sum of the widths of the lines before it (with the extra
entry for position `len`, from `once(0).chain(scan)`). -/
def codeOffsets : List (List String) → List Nat
  | [] => [0]
  | l :: ls => 0 :: (codeOffsets ls).map (lineWidth l + ·)

/-- Does this line match `["Proc", name]`? -/
def isProcName : List String → Option String
  | ["Proc", n] => some n
  | _ => none

/-- The inner `while lines[ip] != ["End"]` scan: the position of the first
`End` line at or after `i`, `none` when the stream ends first (the
out-of-bounds indexing panic). -/
def findEndFrom (lines : List (List String)) (i : Nat) : Option Nat :=
  ((lines.drop i).findIdx? (fun l => l == ["End"])).map (i + ·)

/-- The body of `find_procedures`: scan from `ip`; at a `Proc` line record
`(name, (declaration position, position after the first End))` and resume
after that End.  The first argument is a step budget (`lines.length` steps
always suffice, since the scan position strictly increases). -/
def findProcsFrom (lines : List (List String)) : Nat → Nat → Option (List (String × Nat × Nat))
  | 0, ip => if lines.length ≤ ip then some [] else none
  | fuel + 1, ip =>
    if lines.length ≤ ip then some []
    else
      match lines[ip]? with
      | none => some []
      | some l =>
        match isProcName l with
        | some name =>
          match findEndFrom lines ip with
          | none => none
          | some j => (findProcsFrom lines fuel (j + 1)).map ((name, ip, j + 1) :: ·)
        | none => findProcsFrom lines fuel (ip + 1)

/-- `find_procedures`: the whole scan from position 0; `none` models the
panic on a `Proc` with no matching `End`. -/
def findProcedures (lines : List (List String)) : Option (List (String × Nat × Nat)) :=
  findProcsFrom lines lines.length 0

/-- Accumulate decimal digits; `none` at the first non-digit character
(`str::parse` rejects the token). -/
def digitsToNat : List Char → Nat → Option Nat
  | [], acc => some acc
  | c :: cs, acc =>
    if c.isDigit then digitsToNat cs (acc * 10 + (c.toNat - 48)) else none

/-- `str::parse::<usize>`: a nonempty string of decimal digits whose value
fits in `usize`; larger values are an overflow error.  (Rust also accepts a
redundant leading `+`, which no claim exercises.) -/
def parseNatLit (s : String) : Option Nat :=
  match s.toList with
  | [] => none
  | cs =>
    match digitsToNat cs 0 with
    | none => none
    | some n => if n < 18446744073709551616 then some n else none

/-- `str::parse::<isize>`: an optional `-` sign, then a nonempty string of
decimal digits; values outside the `isize` range are an overflow error. -/
def parseIntLit (s : String) : Option Int :=
  match s.toList with
  | [] => none
  | ['-'] => none
  | '-' :: cs =>
    match digitsToNat cs 0 with
    | none => none
    | some n => if n ≤ 9223372036854775808 then some (-(n : Int)) else none
  | cs =>
    match digitsToNat cs 0 with
    | none => none
    | some n => if n ≤ 9223372036854775807 then some ((n : Int)) else none

/-- `parse_instruction`: one filtered token line to one instruction, using
the completed label table, byte-offset table and procedure table.  `none`
models every `unwrap`/`panic!` in the Rust arm (unparsable literal, unknown
label or procedure name, unknown mnemonic).  Jump-family operands are label
names resolved through `labels` then retargeted through `offsets`;
`Get`/`Set`/`GetArg`/`SetArg` operands are unsigned integer literals used
directly; `Proc` lowers to a jump past its `End`, `Call` to a call at the
line after the declaration, both retargeted through `offsets`. -/
def parseInstruction (s : List String) (labels : List (String × Nat))
    (offsets : List Nat) (procs : List (String × Nat × Nat)) : Option Instruction :=
  match s with
  | ["Push", x] => (parseIntLit x).map Instruction.Push
  | ["Pop"] => some .Pop
  | ["Add"] => some .Add
  | ["Sub"] => some .Sub
  | ["Mul"] => some .Mul
  | ["Div"] => some .Div
  | ["Incr"] => some .Incr
  | ["Decr"] => some .Decr
  | ["Jump", l] => do let p ← lookupLast labels l; let b ← offsets[p]?; pure (.Jump b)
  | ["JE", l] => do let p ← lookupLast labels l; let b ← offsets[p]?; pure (.JE b)
  | ["JNE", l] => do let p ← lookupLast labels l; let b ← offsets[p]?; pure (.JNE b)
  | ["JGE", l] => do let p ← lookupLast labels l; let b ← offsets[p]?; pure (.JGE b)
  | ["JLE", l] => do let p ← lookupLast labels l; let b ← offsets[p]?; pure (.JLE b)
  | ["JGT", l] => do let p ← lookupLast labels l; let b ← offsets[p]?; pure (.JGT b)
  | ["JLT", l] => do let p ← lookupLast labels l; let b ← offsets[p]?; pure (.JLT b)
  | ["Get", p] => (parseNatLit p).map Instruction.Get
  | ["Set", p] => (parseNatLit p).map Instruction.Set
  | ["GetArg", p] => (parseNatLit p).map Instruction.GetArg
  | ["SetArg", p] => (parseNatLit p).map Instruction.SetArg
  | ["Print"] => some .Print
  | ["PrintC"] => some .PrintC
  | ["PrintStack"] => some .PrintStack
  | ["Proc", pr] => do
      let pe ← lookupLast procs pr; let b ← offsets[pe.2]?; pure (.Jump b)
  | ["Call", pr] => do
      let pe ← lookupLast procs pr; let b ← offsets[pe.1 + 1]?; pure (.Call b)
  | ["Ret"] => some .Ret
  | "label" :: _ => some .Noop
  | ["End"] => some .Noop
  | _ => none

/-- Parse each filtered line into exactly one instruction; `none` as soon
as one line fails to parse (the process aborts). -/
def parseLines (lines : List (List String)) (labels : List (String × Nat))
    (offsets : List Nat) (procs : List (String × Nat × Nat)) : Option (List Instruction) :=
  match lines with
  | [] => some []
  | l :: ls =>
    match parseInstruction l labels offsets procs, parseLines ls labels offsets procs with
    | some i, some t => some (i :: t)
    | _, _ => none

/-- The assembly pipeline of `main` on the raw token lines: filter out
blank/comment lines, build the three tables, and parse every remaining line
into exactly one instruction. -/
def assembleProgram (ls : List (List String)) : Option (List Instruction) :=
  let lines := ls.filter keepLine
  let labels := findLabels lines
  let offsets := codeOffsets lines
  match findProcedures lines with
  | none => none
  | some procs => parseLines lines labels offsets procs

/-- The byte program `main` hands to `interpret`: the packed encoding with
one `End` discriminant appended at the very end. -/
def mainBytes (ls : List (List String)) : Option (List Nat) :=
  (assembleProgram ls).map (fun instrs => toCode instrs ++ [25])

/-- The running example for the frame-offset claims: a procedure `f` that
pushes 9 and then executes `Get 0` inside the call frame of `Call f`, which
is entered with one value (7) already on the stack. -/
def procSrc : List (List String) :=
  [["Proc", "f"], ["Push", "9"], ["Get", "0"], ["Ret"], ["End"],
   ["Push", "7"], ["Call", "f"]]

/-- `Push a; Push b; Sub` as a complete byte program. -/
def subProg (a b : Int) : List Nat := toCode [.Push a, .Push b, .Sub] ++ [25]

/-- `Push a; Push b; Div` as a complete byte program. -/
def divProg (a b : Int) : List Nat := toCode [.Push a, .Push b, .Div] ++ [25]

/-- The tested predicate of each conditional-jump discriminant
(JE 9, JNE 10, JGT 11, JLT 12, JGE 13, JLE 14). -/
def condTaken (op : Nat) (v : Int) : Bool :=
  match op with
  | 9 => v == 0
  | 10 => v != 0
  | 11 => decide (v > 0)
  | 12 => decide (v < 0)
  | 13 => decide (v ≥ 0)
  | 14 => decide (v ≤ 0)
  | _ => false

/-! ## Helper lemmas -/

/-- Decoding the 8 big-endian bytes of an in-range `usize` gives it back. -/
lemma fromBeNat_toBeNat (n : Nat) (h : n < 18446744073709551616) :
    fromBeNat (toBeNat n) = n := by
  simp only [toBeNat, fromBeNat, List.foldl]
  omega

/-- Decoding the two's-complement bytes of an in-range `isize` gives it
back. -/
lemma fromBeInt_toBeInt (d : Int) (h1 : -9223372036854775808 ≤ d)
    (h2 : d < 9223372036854775808) : fromBeInt (toBeInt d) = d := by
  have hm : (0 : Int) ≤ d % 18446744073709551616 ∧
      d % 18446744073709551616 < 18446744073709551616 := by
    constructor
    · exact Int.emod_nonneg d (by norm_num)
    · exact Int.emod_lt_of_pos d (by norm_num)
  simp only [fromBeInt, toBeInt,
    fromBeNat_toBeNat (d % 18446744073709551616).toNat (by omega)]
  split <;> omega

/-- A `cont` step extends a run by one. -/
lemma runVM_cont {code : List Nat} {s s' : VMState} {fuel : Nat}
    (h : step code s = .cont s') :
    runVM (fuel + 1) code s = runVM fuel code s' := by
  simp [runVM, h]

/-- A `halt` step finishes a run. -/
lemma runVM_halt {code : List Nat} {s s' : VMState} {fuel : Nat}
    (h : step code s = .halt s') :
    runVM (fuel + 1) code s = .halted s' := by
  simp [runVM, h]

/-- A faulting step terminates a run with the output printed so far. -/
lemma runVM_fault {code : List Nat} {s : VMState} {o : List OutItem} {fuel : Nat}
    (h : step code s = .fault o) :
    runVM (fuel + 1) code s = .fault o := by
  simp [runVM, h]

/-- Parsing the filtered lines produces exactly one instruction per line. -/
lemma parseLines_length (labels : List (String × Nat)) (offsets : List Nat)
    (procs : List (String × Nat × Nat)) :
    ∀ (lines : List (List String)) (out : List Instruction),
      parseLines lines labels offsets procs = some out → out.length = lines.length := by
  intro lines
  induction lines with
  | nil => intro out h; rw [parseLines] at h; cases h; rfl
  | cons l ls ih =>
    intro out h
    rw [parseLines] at h
    cases hf : parseInstruction l labels offsets procs with
    | none => rw [hf] at h; exact absurd h (by simp)
    | some i =>
      cases ht : parseLines ls labels offsets procs with
      | none => rw [hf, ht] at h; exact absurd h (by simp)
      | some t =>
        rw [hf, ht] at h
        cases h
        simp [ih t ht]

/-- Parsing is per line: the instruction at position `i` is the parse of
the line at position `i`. -/
lemma parseLines_get (labels : List (String × Nat)) (offsets : List Nat)
    (procs : List (String × Nat × Nat)) :
    ∀ (lines : List (List String)) (out : List Instruction) (i : Nat) (l : List String),
      parseLines lines labels offsets procs = some out →
      lines[i]? = some l →
      out[i]? = parseInstruction l labels offsets procs := by
  intro lines
  induction lines with
  | nil => intro out i l _ hl; simp at hl
  | cons a ls ih =>
    intro out i l h hl
    rw [parseLines] at h
    cases hf : parseInstruction a labels offsets procs with
    | none => rw [hf] at h; exact absurd h (by simp)
    | some b =>
      cases ht : parseLines ls labels offsets procs with
      | none => rw [hf, ht] at h; exact absurd h (by simp)
      | some t =>
        rw [hf, ht] at h
        cases h
        cases i with
        | zero => simp at hl; simp [← hl, hf]
        | succ i =>
          rw [List.getElem?_cons_succ] at hl ⊢
          exact ih t i l ht hl


/-- `findEndFrom` never returns a position before its start. -/
lemma findEndFrom_le {lines : List (List String)} {i j : Nat}
    (h : findEndFrom lines i = some j) : i ≤ j := by
  rw [findEndFrom] at h
  rcases Option.map_eq_some'.mp h with ⟨k, _, hk⟩
  omega

/-- A line recognized as a procedure declaration is exactly
`["Proc", name]`. -/
lemma isProcName_eq_some {l : List String} {n : String}
    (h : isProcName l = some n) : l = ["Proc", n] := by
  rw [isProcName.eq_def] at h
  split at h
  · cases h; rfl
  · exact absurd h (by simp)

/-- The procedure scan visits position `i` and records the `Proc` that
begins there, provided every `Proc` strictly before `i` (from the scan start
on) closes before `i`: the scan can only skip over declaration-to-End
spans. -/
lemma findProcsFrom_mem (lines : List (List String)) :
    ∀ (fuel ip : Nat) (ps : List (String × Nat × Nat)) (i j : Nat) (n : String),
      findProcsFrom lines fuel ip = some ps →
      ip ≤ i →
      lines[i]? = some ["Proc", n] →
      findEndFrom lines i = some j →
      (∀ k m, ip ≤ k → k < i → lines[k]? = some ["Proc", m] →
        ∃ j', findEndFrom lines k = some j' ∧ j' < i) →
      (n, i, j + 1) ∈ ps := by
  intro fuel
  induction fuel with
  | zero =>
    intro ip ps i j n hgo hle hi hj _
    have hlen : i < lines.length := by
      rcases List.getElem?_eq_some.mp hi with ⟨h, _⟩
      exact h
    rw [findProcsFrom] at hgo
    split at hgo
    · omega
    · exact absurd hgo (by simp)
  | succ fuel ih =>
    intro ip ps i j n hgo hle hi hj hnest
    have hlen : i < lines.length := by
      rcases List.getElem?_eq_some.mp hi with ⟨h, _⟩
      exact h
    rw [findProcsFrom] at hgo
    split at hgo
    · omega
    · split at hgo
      · -- the scan position is always in range while scanning
        rename_i hnone
        have := List.getElem?_eq_none_iff.mp hnone
        omega
      · rename_i l hg
        split at hgo
        · -- a Proc line at the scan position
          rename_i name hpn
          have hl := isProcName_eq_some hpn
          subst hl
          split at hgo
          · exact absurd hgo (by simp)
          · rename_i j' hj'
            rcases Option.map_eq_some'.mp hgo with ⟨ps', hrec, hps⟩
            rcases Nat.eq_or_lt_of_le hle with heq | hlt
            · -- the scan is exactly at our Proc line
              subst heq
              rw [hg] at hi
              have hn : name = n := by cases hi; rfl
              subst hn
              rw [hj] at hj'
              cases hj'
              rw [← hps]
              exact List.mem_cons_self _ _
            · -- a Proc strictly before ours: it closes before i, skip it
              obtain ⟨j2, hj2, hj2lt⟩ := hnest ip name (le_refl ip) hlt hg
              have hje : j' = j2 := by
                rw [hj2] at hj'
                exact (Option.some.inj hj').symm
              have hged := findEndFrom_le hj2
              have hmem : (n, i, j + 1) ∈ ps' := by
                apply ih (j' + 1) ps' i j n hrec (by omega) hi hj
                intro k m' hk1 hk2 hk3
                exact hnest k m' (by omega) hk2 hk3
              rw [← hps]
              exact List.mem_cons_of_mem _ hmem
        · -- not a Proc line: step to the next position
          rename_i hpn
          rcases Nat.eq_or_lt_of_le hle with heq | hlt
          · subst heq
            rw [hg] at hi
            cases hi
            simp [isProcName] at hpn
          · apply ih (ip + 1) ps i j n hgo (by omega) hi hj
            intro k m' hk1 hk2 hk3
            exact hnest k m' (by omega) hk2 hk3

/-- Decoding a known discriminant dispatches to its handler. -/
lemma step_eq_execOp {code : List Nat} {s : VMState} {op : Nat}
    (h : code[s.ip]? = some op) : step code s = execOp code op s := by
  unfold step
  rw [h]

/-- Only the End handler can finish a dispatch chain normally, and it
leaves the state untouched. -/
lemma execOp_halt {code : List Nat} {op : Nat} {s t : VMState}
    (h : execOp code op s = .halt t) : op = 25 ∧ t = s := by
  rw [execOp.eq_def] at h
  split at h <;> (try (repeat' split at h)) <;> simp_all

/-! ## Claim theorems -/

/-- C1: the spec says `Get i` pushes `stack[frame_offset + i]` and `Set i`
overwrites `stack[frame_offset + i]`, where `frame_offset` is the innermost
frame's recorded stack length.  The active byte-code handlers index the
stack absolutely and ignore the frame offset: with stack `[7, 9]` and an
active frame of offset 1, `Get 0` pushes `stack[0] = 7` although
`stack[frame_offset + 0] = 9`, and `Set 0` overwrites `stack[0]` (giving
`[9, 9]`) although the claimed semantics would rewrite index 1 (leaving
`[7, 9]`).  This contradicts the code's own StackFrame documentation and
its reference interpreter, which are frame-relative. -/
theorem get_set_ignore_frame_offset :
    step (toCode [.Get 0]) ⟨0, [7, 9], [⟨1, 47⟩], []⟩ =
      .cont ⟨9, [7, 9, 7], [⟨1, 47⟩], []⟩ ∧
    ([7, 9] : List Int)[1 + 0]? = some 9 ∧ (7 : Int) ≠ 9 ∧
    step (toCode [.Set 0]) ⟨0, [7, 9], [⟨1, 47⟩], []⟩ =
      .cont ⟨9, [9, 9], [⟨1, 47⟩], []⟩ ∧
    ([9, 9] : List Int) ≠ [7, 9] := by
  decide

/-- C2: packed-bytecode execution is claimed to produce the same output and
final stack as tagged-instruction execution for every program.  It does not:
on `procSrc` the assembler produces the byte-targeted program below, whose
packed execution halts with stack `[7, 9, 7]` (the packed `Get` handler
indexes absolutely), while executing the same program in instruction-index
space under the tagged per-opcode semantics (frame-relative `Get`) halts
with stack `[7, 9, 9]`. -/
theorem packed_vs_tagged_divergence :
    assembleProgram procSrc =
      some [.Jump 29, .Push 9, .Get 0, .Ret, .Noop, .Push 7, .Call 9] ∧
    interpretBytes 20
        (toCode [.Jump 29, .Push 9, .Get 0, .Ret, .Noop, .Push 7, .Call 9] ++ [25]) =
      .halted ⟨47, [7, 9, 7], [], []⟩ ∧
    interpretTagged 20 [.Jump 5, .Push 9, .Get 0, .Ret, .Noop, .Push 7, .Call 1] =
      .halted ⟨7, [7, 9, 9], [], []⟩ ∧
    ([7, 9, 7] : List Int) ≠ [7, 9, 9] := by
  decide

/-- C3 counterexample: the claim predicts `Push a; Push b; Sub` leaves
`b − a` and `Push a; Push b; Div` leaves `b / a`.  At `a = 6, b = 3` the
code leaves `6 − 3 = 3` (not `3 − 6 = −3`) and `6 / 3 = 2` (not
`3 / 6 = 0`): the result is first-pushed minus/over second-pushed. -/
theorem sub_div_literal_counterexample :
    interpretBytes 10 (toCode [.Push 6, .Push 3, .Sub] ++ [25]) =
      .halted ⟨19, [3], [], []⟩ ∧
    ((3 : Int) ≠ 3 - 6) ∧
    interpretBytes 10 (toCode [.Push 6, .Push 3, .Div] ++ [25]) =
      .halted ⟨19, [2], [], []⟩ ∧
    ((2 : Int) ≠ Int.tdiv 3 6) := by
  decide

/-- C3 amended: for `isize`-range integers, `Push a; Push b; Sub` leaves a
single cell `a − b` (first-pushed minus second-pushed) whenever `a − b` fits
in `isize` (otherwise the subtraction itself overflows: a debug build
panics, a release build wraps); `Push a; Push b; Div` leaves `a / b`
truncated toward zero when `b ≠ 0` and the division is not the
unconditional overflow panic `isize::MIN / -1`; and a zero divisor on top
of the stack makes `Div` a fatal fault before any output. -/
theorem sub_div_amended (a b : Int)
    (ha1 : -9223372036854775808 ≤ a) (ha2 : a < 9223372036854775808)
    (hb1 : -9223372036854775808 ≤ b) (hb2 : b < 9223372036854775808) :
    (-9223372036854775808 ≤ a - b → a - b ≤ 9223372036854775807 →
      interpretBytes 10 (subProg a b) = .halted ⟨19, [a - b], [], []⟩) ∧
    (b ≠ 0 → ¬(a = -9223372036854775808 ∧ b = -1) →
      interpretBytes 10 (divProg a b) = .halted ⟨19, [Int.tdiv a b], [], []⟩) ∧
    (b = 0 → interpretBytes 10 (divProg a b) = .fault []) := by
  have ra := fromBeInt_toBeInt a ha1 ha2
  have rb := fromBeInt_toBeInt b hb1 hb2
  have k1s : interpretBytes 10 (subProg a b) =
      runVM 8 (subProg a b)
        ⟨18, [fromBeInt (toBeInt a), fromBeInt (toBeInt b)], [], []⟩ := rfl
  rw [ra, rb] at k1s
  have k1d : interpretBytes 10 (divProg a b) =
      runVM 8 (divProg a b)
        ⟨18, [fromBeInt (toBeInt a), fromBeInt (toBeInt b)], [], []⟩ := rfl
  rw [ra, rb] at k1d
  have k2s : step (subProg a b) ⟨18, [a, b], [], []⟩ =
      if -9223372036854775808 ≤ a - b ∧ a - b ≤ 9223372036854775807 then
        StepResult.cont ⟨19, [a - b], [], []⟩
      else .fault [] := rfl
  have k2d : step (divProg a b) ⟨18, [a, b], [], []⟩ =
      if b = 0 then StepResult.fault []
      else if a = -9223372036854775808 ∧ b = -1 then .fault []
      else .cont ⟨19, [Int.tdiv a b], [], []⟩ := rfl
  refine ⟨fun hs1 hs2 => ?_, fun hb0 hov => ?_, fun hb0 => ?_⟩
  · rw [if_pos ⟨hs1, hs2⟩] at k2s
    have k3 : runVM 8 (subProg a b) ⟨18, [a, b], [], []⟩ =
        runVM 7 (subProg a b) ⟨19, [a - b], [], []⟩ :=
      @runVM_cont (subProg a b) _ _ 7 k2s
    have k5 : step (subProg a b) ⟨19, [a - b], [], []⟩ =
        .halt ⟨19, [a - b], [], []⟩ := rfl
    exact k1s.trans (k3.trans (@runVM_halt (subProg a b) _ _ 6 k5))
  · rw [if_neg hb0, if_neg hov] at k2d
    have k3 : runVM 8 (divProg a b) ⟨18, [a, b], [], []⟩ =
        runVM 7 (divProg a b) ⟨19, [Int.tdiv a b], [], []⟩ :=
      @runVM_cont (divProg a b) _ _ 7 k2d
    have k5 : step (divProg a b) ⟨19, [Int.tdiv a b], [], []⟩ =
        .halt ⟨19, [Int.tdiv a b], [], []⟩ := rfl
    exact k1d.trans (k3.trans (@runVM_halt (divProg a b) _ _ 6 k5))
  · rw [if_pos hb0] at k2d
    exact k1d.trans (@runVM_fault (divProg a b) _ _ 7 k2d)

/-- Witness for `sub_div_amended` at `a = 9, b = 4` (and `b = 0` for the
fault clause). -/
theorem sub_div_amended_witness :
    interpretBytes 10 (subProg 9 4) = .halted ⟨19, [9 - 4], [], []⟩ ∧
    interpretBytes 10 (divProg 9 4) = .halted ⟨19, [Int.tdiv 9 4], [], []⟩ ∧
    interpretBytes 10 (divProg 9 0) = .fault [] := by
  have h := sub_div_amended 9 4 (by decide) (by decide) (by decide) (by decide)
  have h0 := sub_div_amended 9 0 (by decide) (by decide) (by decide) (by decide)
  exact ⟨h.1 (by decide) (by decide), h.2.1 (by decide) (by decide), h0.2.2 rfl⟩

/-- C5: a conditional jump executed on a non-empty stack pops the tested
top value and jumps to the decoded target exactly when its predicate holds;
otherwise it advances to the next instruction (9 bytes on) leaving the
value untouched. -/
theorem cond_jump_semantics (code : List Nat) (ip op : Nat) (bs : List Nat)
    (xs : List Int) (v : Int) (cs : List StackFrame) (out : List OutItem)
    (hop : code[ip]? = some op) (h9 : 9 ≤ op) (h14 : op ≤ 14)
    (hb : readBytes8 code (ip + 1) = some bs) :
    (condTaken op v = true →
      step code ⟨ip, xs ++ [v], cs, out⟩ = .cont ⟨fromBeNat bs, xs, cs, out⟩) ∧
    (condTaken op v = false →
      step code ⟨ip, xs ++ [v], cs, out⟩ = .cont ⟨ip + 9, xs ++ [v], cs, out⟩) := by
  interval_cases op <;>
    constructor <;>
    intro h <;>
    simp only [condTaken, beq_iff_eq, bne_iff_ne, beq_eq_false_iff_ne,
      bne_eq_false_iff_eq, decide_eq_true_eq, decide_eq_false_iff_not, ne_eq] at h <;>
    rw [step_eq_execOp hop] <;>
    simp only [execOp, hb] <;>
    simp [h, List.getLast?_concat, List.dropLast_concat]

/-- Witness for `cond_jump_semantics`: a `JE 0` at position 0 taken on
top value 0 and not taken on top value 5. -/
theorem cond_jump_semantics_witness :
    ((0 : Int) == 0) = true ∧
    step [9, 0, 0, 0, 0, 0, 0, 0, 0] ⟨0, [7, 0], [], []⟩ =
      .cont ⟨0, [7], [], []⟩ ∧
    ((5 : Int) == 0) = false ∧
    step [9, 0, 0, 0, 0, 0, 0, 0, 0] ⟨0, [7, 5], [], []⟩ =
      .cont ⟨9, [7, 5], [], []⟩ := by
  have h0 := cond_jump_semantics [9, 0, 0, 0, 0, 0, 0, 0, 0] 0 9
      [0, 0, 0, 0, 0, 0, 0, 0] [7] 0 [] [] rfl (by norm_num) (by norm_num) rfl
  have h5 := cond_jump_semantics [9, 0, 0, 0, 0, 0, 0, 0, 0] 0 9
      [0, 0, 0, 0, 0, 0, 0, 0] [7] 5 [] [] rfl (by norm_num) (by norm_num) rfl
  exact ⟨rfl, h0.1 rfl, rfl, h5.2 rfl⟩

/-- C6: `Call p` pushes a frame recording the current stack length and the
position 9 bytes on (the instruction after the Call) and jumps to `p`;
`Ret` pops the innermost frame and resumes at its recorded return position
whatever the operand stack now holds; `Ret` with an empty call stack is a
fatal fault. -/
theorem call_ret_semantics (code : List Nat) (ip ip2 ip3 : Nat) (bs : List Nat)
    (st st2 st3 : List Int) (cs cs2 : List StackFrame) (off r : Nat)
    (out out2 out3 : List OutItem) :
    (code[ip]? = some 23 → readBytes8 code (ip + 1) = some bs →
      step code ⟨ip, st, cs, out⟩ =
        .cont ⟨fromBeNat bs, st, cs ++ [⟨st.length, ip + 9⟩], out⟩) ∧
    (code[ip2]? = some 24 →
      step code ⟨ip2, st2, cs2 ++ [⟨off, r⟩], out2⟩ = .cont ⟨r, st2, cs2, out2⟩) ∧
    (code[ip3]? = some 24 →
      step code ⟨ip3, st3, [], out3⟩ = .fault out3) := by
  refine ⟨fun h1 h2 => ?_, fun h1 => ?_, fun h1 => ?_⟩
  · rw [step_eq_execOp h1]
    simp [execOp, h2]
  · rw [step_eq_execOp h1]
    simp [execOp, List.getLast?_concat, List.dropLast_concat]
  · rw [step_eq_execOp h1]
    simp [execOp]

/-- Witness for `call_ret_semantics` on the bytes of `[Call 0, Ret]`. -/
theorem call_ret_semantics_witness :
    step (toCode [.Call 0, .Ret]) ⟨0, [4], [], []⟩ =
      .cont ⟨0, [4], [⟨1, 9⟩], []⟩ ∧
    step (toCode [.Call 0, .Ret]) ⟨9, [4, 6], [⟨1, 9⟩], []⟩ =
      .cont ⟨9, [4, 6], [], []⟩ ∧
    step (toCode [.Call 0, .Ret]) ⟨9, [4], [], []⟩ = .fault [] := by
  have h := call_ret_semantics (toCode [.Call 0, .Ret]) 0 9 9
      [0, 0, 0, 0, 0, 0, 0, 0] [4] [4, 6] [4] [] [] 1 9 [] [] []
  exact ⟨h.1 rfl rfl, h.2.1 rfl, h.2.2 rfl⟩

/-- C9: every runtime fault terminates execution immediately: pop on an
empty stack, peek on an empty stack (Print), an out-of-range `Get` index,
`Ret`/`GetArg`/`SetArg` with no active frame, and a zero divisor; a fault
ends the whole run with the output emitted so far, and the one-instruction
program `Pop` faults before producing any output. -/
theorem runtime_faults :
    (∀ (code : List Nat) (ip : Nat) (cs : List StackFrame) (out : List OutItem),
      code[ip]? = some 1 → step code ⟨ip, [], cs, out⟩ = .fault out) ∧
    (∀ (code : List Nat) (ip : Nat) (cs : List StackFrame) (out : List OutItem),
      code[ip]? = some 20 → step code ⟨ip, [], cs, out⟩ = .fault out) ∧
    (∀ (code : List Nat) (ip : Nat) (bs : List Nat) (st : List Int)
       (cs : List StackFrame) (out : List OutItem),
      code[ip]? = some 15 → readBytes8 code (ip + 1) = some bs →
      st.length ≤ fromBeNat bs → step code ⟨ip, st, cs, out⟩ = .fault out) ∧
    (∀ (code : List Nat) (ip : Nat) (st : List Int) (out : List OutItem),
      code[ip]? = some 24 → step code ⟨ip, st, [], out⟩ = .fault out) ∧
    (∀ (code : List Nat) (ip : Nat) (bs : List Nat) (st : List Int)
       (out : List OutItem),
      code[ip]? = some 17 → readBytes8 code (ip + 1) = some bs →
      step code ⟨ip, st, [], out⟩ = .fault out) ∧
    (∀ (code : List Nat) (ip : Nat) (bs : List Nat) (st : List Int)
       (out : List OutItem),
      code[ip]? = some 18 → readBytes8 code (ip + 1) = some bs →
      step code ⟨ip, st, [], out⟩ = .fault out) ∧
    (∀ (code : List Nat) (ip : Nat) (ys : List Int) (cs : List StackFrame)
       (out : List OutItem),
      code[ip]? = some 7 → step code ⟨ip, ys ++ [0], cs, out⟩ = .fault out) ∧
    (∀ (fuel : Nat) (code : List Nat) (s : VMState) (o : List OutItem),
      step code s = .fault o → runVM (fuel + 1) code s = .fault o) ∧
    interpretBytes 5 (toCode [.Pop] ++ [25]) = .fault [] := by
  refine ⟨?_, ?_, ?_, ?_, ?_, ?_, ?_, ?_, ?_⟩
  · intro code ip cs out h
    rw [step_eq_execOp h]
    simp [execOp]
  · intro code ip cs out h
    rw [step_eq_execOp h]
    simp [execOp]
  · intro code ip bs st cs out h hb hlen
    rw [step_eq_execOp h]
    simp [execOp, hb, List.getElem?_eq_none hlen]
  · intro code ip st out h
    rw [step_eq_execOp h]
    simp [execOp]
  · intro code ip bs st out h hb
    rw [step_eq_execOp h]
    simp [execOp, hb]
  · intro code ip bs st out h hb
    rw [step_eq_execOp h]
    simp [execOp, hb]
  · intro code ip ys cs out h
    rw [step_eq_execOp h]
    rcases hys : ys.getLast? with _ | b <;>
      simp [execOp, List.getLast?_concat, List.dropLast_concat, hys]
  · intro fuel code s o h
    exact runVM_fault h
  · decide

/-- Witness for `runtime_faults`: each fault clause at a one-instruction
byte program, plus fault propagation through `runVM`. -/
theorem runtime_faults_witness :
    step [1] ⟨0, [], [], []⟩ = .fault [] ∧
    step [20] ⟨0, [], [], []⟩ = .fault [] ∧
    step [15, 0, 0, 0, 0, 0, 0, 0, 0] ⟨0, [], [], []⟩ = .fault [] ∧
    step [24] ⟨0, [4], [], []⟩ = .fault [] ∧
    step [17, 0, 0, 0, 0, 0, 0, 0, 0] ⟨0, [4], [], []⟩ = .fault [] ∧
    step [18, 0, 0, 0, 0, 0, 0, 0, 0] ⟨0, [4], [], []⟩ = .fault [] ∧
    step [7] ⟨0, [4, 0], [], []⟩ = .fault [] ∧
    runVM 1 [1] ⟨0, [], [], []⟩ = .fault [] := by
  have h := runtime_faults
  refine ⟨h.1 [1] 0 [] [] rfl, h.2.1 [20] 0 [] [] rfl,
    h.2.2.1 [15, 0, 0, 0, 0, 0, 0, 0, 0] 0 [0, 0, 0, 0, 0, 0, 0, 0] [] [] [] rfl rfl
      (by norm_num),
    h.2.2.2.1 [24] 0 [4] [] rfl,
    h.2.2.2.2.1 [17, 0, 0, 0, 0, 0, 0, 0, 0] 0 [0, 0, 0, 0, 0, 0, 0, 0] [4] [] rfl rfl,
    h.2.2.2.2.2.1 [18, 0, 0, 0, 0, 0, 0, 0, 0] 0 [0, 0, 0, 0, 0, 0, 0, 0] [4] [] rfl rfl,
    h.2.2.2.2.2.2.1 [7] 0 [4] [] [] rfl,
    h.2.2.2.2.2.2.2.1 0 [1] ⟨0, [], [], []⟩ [] (h.1 [1] 0 [] [] rfl)⟩

/-- C10: the byte program `main` runs is the packed code with exactly one
End discriminant appended at the very end; a dispatch step halts normally
precisely when the decoded opcode byte is End (25), leaving the state
unchanged; and control that falls through past the last packed instruction
lands exactly on the appended terminator and halts there instead of reading
past the end of the byte array. -/
theorem end_terminator :
    (∀ (code : List Nat) (s t : VMState), step code s = .halt t →
      code[s.ip]? = some 25 ∧ t = s) ∧
    (∀ (code : List Nat) (s : VMState), code[s.ip]? = some 25 →
      step code s = .halt s) ∧
    (∀ (instrs : List Instruction) (st : List Int) (cs : List StackFrame)
       (out : List OutItem),
      (toCode instrs ++ [25])[(toCode instrs).length]? = some 25 ∧
      step (toCode instrs ++ [25]) ⟨(toCode instrs).length, st, cs, out⟩ =
        .halt ⟨(toCode instrs).length, st, cs, out⟩) := by
  refine ⟨?_, ?_, ?_⟩
  · intro code s t h
    unfold step at h
    rcases hc : code[s.ip]? with _ | op
    · rw [hc] at h
      simp at h
    · rw [hc] at h
      have h2 : execOp code op s = .halt t := h
      obtain ⟨hop, hts⟩ := execOp_halt h2
      subst hop
      exact ⟨rfl, hts⟩
  · intro code s h
    rw [step_eq_execOp h]
    rfl
  · intro instrs st cs out
    refine ⟨List.getElem?_concat_length _ _, ?_⟩
    rw [step_eq_execOp (List.getElem?_concat_length _ _)]
    rfl

/-- Witness for `end_terminator`: the one-byte program `[25]` halts at
position 0, and `Noop` followed by the appended terminator halts at
position 1 with the state preserved. -/
theorem end_terminator_witness :
    (([25] : List Nat)[(0 : Nat)]? = some 25 ∧
      (⟨0, [], [], []⟩ : VMState) = ⟨0, [], [], []⟩) ∧
    step [25] ⟨0, [], [], []⟩ = .halt ⟨0, [], [], []⟩ ∧
    ((toCode [.Noop] ++ [25])[(toCode [.Noop]).length]? = some 25 ∧
      step (toCode [.Noop] ++ [25]) ⟨(toCode [.Noop]).length, [3], [], []⟩ =
        .halt ⟨(toCode [.Noop]).length, [3], [], []⟩) := by
  have h := end_terminator
  have hs : step [25] ⟨0, [], [], []⟩ = .halt ⟨0, [], [], []⟩ :=
    h.2.1 [25] ⟨0, [], [], []⟩ rfl
  exact ⟨h.1 [25] ⟨0, [], [], []⟩ ⟨0, [], [], []⟩ hs, hs, h.2.2 [.Noop] [3] [] []⟩

/-- C4: every `Proc <name> ... End` region the linear scan visits — i.e.
whose declaration is not nested inside an earlier procedure's span — is
recorded as `(declaration position, position after the first End line
following it)`; the `Proc` line lowers to an unconditional jump to the
byte offset of the position after the region (falling over the body), and
`Call <name>` lowers to a call to the byte offset of the position right
after the declaration line (the procedure's first real instruction). -/
theorem proc_table_and_lowering :
    (∀ (lines : List (List String)) (ps : List (String × Nat × Nat)) (i j : Nat)
       (n : String),
      findProcedures lines = some ps →
      lines[i]? = some ["Proc", n] →
      findEndFrom lines i = some j →
      (∀ k m, k < i → lines[k]? = some ["Proc", m] →
        ∃ j2, findEndFrom lines k = some j2 ∧ j2 < i) →
      (n, i, j + 1) ∈ ps) ∧
    (∀ (labels : List (String × Nat)) (offsets : List Nat)
       (procs : List (String × Nat × Nat)) (n : String) (ds de b : Nat),
      lookupLast procs n = some (ds, de) → offsets[de]? = some b →
      parseInstruction ["Proc", n] labels offsets procs = some (.Jump b)) ∧
    (∀ (labels : List (String × Nat)) (offsets : List Nat)
       (procs : List (String × Nat × Nat)) (n : String) (ds de b : Nat),
      lookupLast procs n = some (ds, de) → offsets[ds + 1]? = some b →
      parseInstruction ["Call", n] labels offsets procs = some (.Call b)) := by
  refine ⟨?_, ?_, ?_⟩
  · intro lines ps i j n hps hi hj hnest
    exact findProcsFrom_mem lines lines.length 0 ps i j n hps (Nat.zero_le i) hi hj
      (fun k m _ hk2 hk3 => hnest k m hk2 hk3)
  · intro labels offsets procs n ds de b h1 h2
    have hr : parseInstruction ["Proc", n] labels offsets procs =
        (lookupLast procs n).bind
          (fun pe => (offsets[pe.2]?).bind (fun b2 => some (Instruction.Jump b2))) := rfl
    rw [hr, h1]
    simp [h2]
  · intro labels offsets procs n ds de b h1 h2
    have hr : parseInstruction ["Call", n] labels offsets procs =
        (lookupLast procs n).bind
          (fun pe => (offsets[pe.1 + 1]?).bind (fun b2 => some (Instruction.Call b2))) := rfl
    rw [hr, h1]
    simp [h2]

/-- Witness for `proc_table_and_lowering` on `procSrc`: procedure `f`
declared at line 0 with its End at line 4 is recorded as `(0, 5)`; with the
byte-offset table of `procSrc`, `Proc f` lowers to `Jump 29` (offset of
line 5) and `Call f` to `Call 9` (offset of line 1). -/
theorem proc_table_and_lowering_witness :
    (("f", 0, 5) : String × Nat × Nat) ∈ ([("f", 0, 5)] : List (String × Nat × Nat)) ∧
    parseInstruction ["Proc", "f"] [] [0, 9, 18, 27, 28, 29, 38, 47] [("f", 0, 5)] =
      some (.Jump 29) ∧
    parseInstruction ["Call", "f"] [] [0, 9, 18, 27, 28, 29, 38, 47] [("f", 0, 5)] =
      some (.Call 9) := by
  have h := proc_table_and_lowering
  refine ⟨?_, ?_, ?_⟩
  · exact h.1 procSrc [("f", 0, 5)] 0 4 "f" (by decide) (by decide) (by decide)
      (fun k m hk _ => absurd hk (Nat.not_lt_zero k))
  · exact h.2.1 [] [0, 9, 18, 27, 28, 29, 38, 47] [("f", 0, 5)] "f" 0 5 29
      (by decide) (by decide)
  · exact h.2.2 [] [0, 9, 18, 27, 28, 29, 38, 47] [("f", 0, 5)] "f" 0 5 9
      (by decide) (by decide)

/-- C7 counterexample: blank and comment lines do not assemble to no-ops
occupying a position — they are filtered out before assembly.  The claim
would give this three-line source a three-instruction program starting with
two `Noop`s; the code produces the single instruction `Push 1`. -/
theorem blank_comment_counterexample :
    assembleProgram [[], ["--", "x"], ["Push", "1"]] = some [.Push 1] ∧
    (some [Instruction.Push 1] ≠
      some [Instruction.Noop, Instruction.Noop, Instruction.Push 1]) := by
  decide

/-- C7 amended: blank and comment lines are discarded before position
numbering (removing them does not change the filtered line sequence), while
`label ...` and `End` lines assemble to a `Noop` that occupies one program
position of its own — the instruction list has exactly one instruction per
kept line, at the same index. -/
theorem noop_positions :
    (∀ (xs ys : List (List String)),
      (xs ++ [[]] ++ ys).filter keepLine = (xs ++ ys).filter keepLine) ∧
    (∀ (xs ys : List (List String)) (rest : List String),
      (xs ++ [("--" :: rest)] ++ ys).filter keepLine = (xs ++ ys).filter keepLine) ∧
    (∀ (rest : List String) (labels : List (String × Nat)) (offsets : List Nat)
       (procs : List (String × Nat × Nat)),
      parseInstruction ("label" :: rest) labels offsets procs = some .Noop) ∧
    (∀ (labels : List (String × Nat)) (offsets : List Nat)
       (procs : List (String × Nat × Nat)),
      parseInstruction ["End"] labels offsets procs = some .Noop) ∧
    (∀ (lines : List (List String)) (labels : List (String × Nat)) (offsets : List Nat)
       (procs : List (String × Nat × Nat)) (out : List Instruction),
      parseLines lines labels offsets procs = some out → out.length = lines.length) := by
  refine ⟨?_, ?_, ?_, ?_, ?_⟩
  · intro xs ys
    simp [List.filter_append, keepLine]
  · intro xs ys rest
    simp [List.filter_append, keepLine]
  · intro rest labels offsets procs
    rfl
  · intro labels offsets procs
    rfl
  · intro lines labels offsets procs out h
    exact parseLines_length labels offsets procs lines out h

/-- Witness for `noop_positions` on a small concrete program. -/
theorem noop_positions_witness :
    ([["Push", "1"], [], ["label", "a"]] : List (List String)).filter keepLine =
      ([["Push", "1"], ["label", "a"]] : List (List String)).filter keepLine ∧
    parseInstruction ["label", "a"] [] [0] [] = some .Noop ∧
    parseInstruction ["End"] [] [0] [] = some .Noop ∧
    ([Instruction.Push 1, Instruction.Noop] : List Instruction).length =
      ([["Push", "1"], ["label", "a"]] : List (List String)).length := by
  have h := noop_positions
  refine ⟨h.1 [["Push", "1"]] [["label", "a"]], h.2.2.1 ["a"] [] [0] [],
    h.2.2.2.1 [] [0] [],
    h.2.2.2.2 [["Push", "1"], ["label", "a"]] [] [0] []
      [Instruction.Push 1, Instruction.Noop] (by decide)⟩

/-- C8 counterexample: a positional operand cannot be written in all three
forms.  `Jump 5` (integer literal) fails to assemble even with a complete
offset table, `Get lbl` (label name) fails even though `lbl` is a declared
label, and `Call 3` (integer literal) fails: each operand kind accepts
exactly one form. -/
theorem operand_form_counterexample :
    parseInstruction ["Jump", "5"] [] [0, 1, 2, 3, 4, 5] [] = none ∧
    parseInstruction ["Get", "lbl"] [("lbl", 2)] [0, 1, 2] [] = none ∧
    parseInstruction ["Call", "3"] [] [0, 1, 2, 3] [] = none := by
  decide

/-- C8 amended: each positional operand accepts exactly one form.  Every
jump-family operand (Jump, JE, JNE, JGE, JLE, JGT, JLT) must be a declared
label name, resolved through the label table and retargeted to a byte
offset at assembly time (an unknown name - in particular an integer
literal - aborts); every Get/Set/GetArg/SetArg operand must be an unsigned
integer literal, used directly as an index (a non-literal aborts); a Call
operand must be a declared procedure name, resolved to the byte offset of
the line after the declaration (an unknown name aborts). -/
theorem operand_forms :
    (∀ (l : String) (labels : List (String × Nat)) (offsets : List Nat)
       (procs : List (String × Nat × Nat)) (p b : Nat),
      lookupLast labels l = some p → offsets[p]? = some b →
      parseInstruction ["Jump", l] labels offsets procs = some (.Jump b)) ∧
    (∀ (l : String) (labels : List (String × Nat)) (offsets : List Nat)
       (procs : List (String × Nat × Nat)),
      lookupLast labels l = none →
      parseInstruction ["Jump", l] labels offsets procs = none) ∧
    (∀ (l : String) (labels : List (String × Nat)) (offsets : List Nat)
       (procs : List (String × Nat × Nat)) (p b : Nat),
      lookupLast labels l = some p → offsets[p]? = some b →
      parseInstruction ["JE", l] labels offsets procs = some (.JE b)) ∧
    (∀ (l : String) (labels : List (String × Nat)) (offsets : List Nat)
       (procs : List (String × Nat × Nat)),
      lookupLast labels l = none →
      parseInstruction ["JE", l] labels offsets procs = none) ∧
    (∀ (l : String) (labels : List (String × Nat)) (offsets : List Nat)
       (procs : List (String × Nat × Nat)) (p b : Nat),
      lookupLast labels l = some p → offsets[p]? = some b →
      parseInstruction ["JNE", l] labels offsets procs = some (.JNE b)) ∧
    (∀ (l : String) (labels : List (String × Nat)) (offsets : List Nat)
       (procs : List (String × Nat × Nat)),
      lookupLast labels l = none →
      parseInstruction ["JNE", l] labels offsets procs = none) ∧
    (∀ (l : String) (labels : List (String × Nat)) (offsets : List Nat)
       (procs : List (String × Nat × Nat)) (p b : Nat),
      lookupLast labels l = some p → offsets[p]? = some b →
      parseInstruction ["JGE", l] labels offsets procs = some (.JGE b)) ∧
    (∀ (l : String) (labels : List (String × Nat)) (offsets : List Nat)
       (procs : List (String × Nat × Nat)),
      lookupLast labels l = none →
      parseInstruction ["JGE", l] labels offsets procs = none) ∧
    (∀ (l : String) (labels : List (String × Nat)) (offsets : List Nat)
       (procs : List (String × Nat × Nat)) (p b : Nat),
      lookupLast labels l = some p → offsets[p]? = some b →
      parseInstruction ["JLE", l] labels offsets procs = some (.JLE b)) ∧
    (∀ (l : String) (labels : List (String × Nat)) (offsets : List Nat)
       (procs : List (String × Nat × Nat)),
      lookupLast labels l = none →
      parseInstruction ["JLE", l] labels offsets procs = none) ∧
    (∀ (l : String) (labels : List (String × Nat)) (offsets : List Nat)
       (procs : List (String × Nat × Nat)) (p b : Nat),
      lookupLast labels l = some p → offsets[p]? = some b →
      parseInstruction ["JGT", l] labels offsets procs = some (.JGT b)) ∧
    (∀ (l : String) (labels : List (String × Nat)) (offsets : List Nat)
       (procs : List (String × Nat × Nat)),
      lookupLast labels l = none →
      parseInstruction ["JGT", l] labels offsets procs = none) ∧
    (∀ (l : String) (labels : List (String × Nat)) (offsets : List Nat)
       (procs : List (String × Nat × Nat)) (p b : Nat),
      lookupLast labels l = some p → offsets[p]? = some b →
      parseInstruction ["JLT", l] labels offsets procs = some (.JLT b)) ∧
    (∀ (l : String) (labels : List (String × Nat)) (offsets : List Nat)
       (procs : List (String × Nat × Nat)),
      lookupLast labels l = none →
      parseInstruction ["JLT", l] labels offsets procs = none) ∧
    (∀ (x : String) (labels : List (String × Nat)) (offsets : List Nat)
       (procs : List (String × Nat × Nat)) (m : Nat),
      parseNatLit x = some m →
      parseInstruction ["Get", x] labels offsets procs = some (.Get m)) ∧
    (∀ (x : String) (labels : List (String × Nat)) (offsets : List Nat)
       (procs : List (String × Nat × Nat)),
      parseNatLit x = none →
      parseInstruction ["Get", x] labels offsets procs = none) ∧
    (∀ (x : String) (labels : List (String × Nat)) (offsets : List Nat)
       (procs : List (String × Nat × Nat)) (m : Nat),
      parseNatLit x = some m →
      parseInstruction ["Set", x] labels offsets procs = some (.Set m)) ∧
    (∀ (x : String) (labels : List (String × Nat)) (offsets : List Nat)
       (procs : List (String × Nat × Nat)),
      parseNatLit x = none →
      parseInstruction ["Set", x] labels offsets procs = none) ∧
    (∀ (x : String) (labels : List (String × Nat)) (offsets : List Nat)
       (procs : List (String × Nat × Nat)) (m : Nat),
      parseNatLit x = some m →
      parseInstruction ["GetArg", x] labels offsets procs = some (.GetArg m)) ∧
    (∀ (x : String) (labels : List (String × Nat)) (offsets : List Nat)
       (procs : List (String × Nat × Nat)),
      parseNatLit x = none →
      parseInstruction ["GetArg", x] labels offsets procs = none) ∧
    (∀ (x : String) (labels : List (String × Nat)) (offsets : List Nat)
       (procs : List (String × Nat × Nat)) (m : Nat),
      parseNatLit x = some m →
      parseInstruction ["SetArg", x] labels offsets procs = some (.SetArg m)) ∧
    (∀ (x : String) (labels : List (String × Nat)) (offsets : List Nat)
       (procs : List (String × Nat × Nat)),
      parseNatLit x = none →
      parseInstruction ["SetArg", x] labels offsets procs = none) ∧
    (∀ (pr : String) (labels : List (String × Nat)) (offsets : List Nat)
       (procs : List (String × Nat × Nat)) (ds de b : Nat),
      lookupLast procs pr = some (ds, de) → offsets[ds + 1]? = some b →
      parseInstruction ["Call", pr] labels offsets procs = some (.Call b)) ∧
    (∀ (pr : String) (labels : List (String × Nat)) (offsets : List Nat)
       (procs : List (String × Nat × Nat)),
      lookupLast procs pr = none →
      parseInstruction ["Call", pr] labels offsets procs = none) := by
  refine ⟨?_, ?_, ?_, ?_, ?_, ?_, ?_, ?_, ?_, ?_, ?_, ?_, ?_, ?_, ?_, ?_, ?_, ?_, ?_, ?_, ?_, ?_, ?_, ?_⟩
  · intro l labels offsets procs p b h1 h2
    have hr : parseInstruction ["Jump", l] labels offsets procs =
        (lookupLast labels l).bind
          (fun p2 => (offsets[p2]?).bind (fun b2 => some (Instruction.Jump b2))) := rfl
    rw [hr, h1]
    simp [h2]
  · intro l labels offsets procs h1
    have hr : parseInstruction ["Jump", l] labels offsets procs =
        (lookupLast labels l).bind
          (fun p2 => (offsets[p2]?).bind (fun b2 => some (Instruction.Jump b2))) := rfl
    rw [hr, h1]
    rfl
  · intro l labels offsets procs p b h1 h2
    have hr : parseInstruction ["JE", l] labels offsets procs =
        (lookupLast labels l).bind
          (fun p2 => (offsets[p2]?).bind (fun b2 => some (Instruction.JE b2))) := rfl
    rw [hr, h1]
    simp [h2]
  · intro l labels offsets procs h1
    have hr : parseInstruction ["JE", l] labels offsets procs =
        (lookupLast labels l).bind
          (fun p2 => (offsets[p2]?).bind (fun b2 => some (Instruction.JE b2))) := rfl
    rw [hr, h1]
    rfl
  · intro l labels offsets procs p b h1 h2
    have hr : parseInstruction ["JNE", l] labels offsets procs =
        (lookupLast labels l).bind
          (fun p2 => (offsets[p2]?).bind (fun b2 => some (Instruction.JNE b2))) := rfl
    rw [hr, h1]
    simp [h2]
  · intro l labels offsets procs h1
    have hr : parseInstruction ["JNE", l] labels offsets procs =
        (lookupLast labels l).bind
          (fun p2 => (offsets[p2]?).bind (fun b2 => some (Instruction.JNE b2))) := rfl
    rw [hr, h1]
    rfl
  · intro l labels offsets procs p b h1 h2
    have hr : parseInstruction ["JGE", l] labels offsets procs =
        (lookupLast labels l).bind
          (fun p2 => (offsets[p2]?).bind (fun b2 => some (Instruction.JGE b2))) := rfl
    rw [hr, h1]
    simp [h2]
  · intro l labels offsets procs h1
    have hr : parseInstruction ["JGE", l] labels offsets procs =
        (lookupLast labels l).bind
          (fun p2 => (offsets[p2]?).bind (fun b2 => some (Instruction.JGE b2))) := rfl
    rw [hr, h1]
    rfl
  · intro l labels offsets procs p b h1 h2
    have hr : parseInstruction ["JLE", l] labels offsets procs =
        (lookupLast labels l).bind
          (fun p2 => (offsets[p2]?).bind (fun b2 => some (Instruction.JLE b2))) := rfl
    rw [hr, h1]
    simp [h2]
  · intro l labels offsets procs h1
    have hr : parseInstruction ["JLE", l] labels offsets procs =
        (lookupLast labels l).bind
          (fun p2 => (offsets[p2]?).bind (fun b2 => some (Instruction.JLE b2))) := rfl
    rw [hr, h1]
    rfl
  · intro l labels offsets procs p b h1 h2
    have hr : parseInstruction ["JGT", l] labels offsets procs =
        (lookupLast labels l).bind
          (fun p2 => (offsets[p2]?).bind (fun b2 => some (Instruction.JGT b2))) := rfl
    rw [hr, h1]
    simp [h2]
  · intro l labels offsets procs h1
    have hr : parseInstruction ["JGT", l] labels offsets procs =
        (lookupLast labels l).bind
          (fun p2 => (offsets[p2]?).bind (fun b2 => some (Instruction.JGT b2))) := rfl
    rw [hr, h1]
    rfl
  · intro l labels offsets procs p b h1 h2
    have hr : parseInstruction ["JLT", l] labels offsets procs =
        (lookupLast labels l).bind
          (fun p2 => (offsets[p2]?).bind (fun b2 => some (Instruction.JLT b2))) := rfl
    rw [hr, h1]
    simp [h2]
  · intro l labels offsets procs h1
    have hr : parseInstruction ["JLT", l] labels offsets procs =
        (lookupLast labels l).bind
          (fun p2 => (offsets[p2]?).bind (fun b2 => some (Instruction.JLT b2))) := rfl
    rw [hr, h1]
    rfl
  · intro x labels offsets procs m h
    have hr : parseInstruction ["Get", x] labels offsets procs =
        (parseNatLit x).map Instruction.Get := rfl
    rw [hr, h]
    rfl
  · intro x labels offsets procs h
    have hr : parseInstruction ["Get", x] labels offsets procs =
        (parseNatLit x).map Instruction.Get := rfl
    rw [hr, h]
    rfl
  · intro x labels offsets procs m h
    have hr : parseInstruction ["Set", x] labels offsets procs =
        (parseNatLit x).map Instruction.Set := rfl
    rw [hr, h]
    rfl
  · intro x labels offsets procs h
    have hr : parseInstruction ["Set", x] labels offsets procs =
        (parseNatLit x).map Instruction.Set := rfl
    rw [hr, h]
    rfl
  · intro x labels offsets procs m h
    have hr : parseInstruction ["GetArg", x] labels offsets procs =
        (parseNatLit x).map Instruction.GetArg := rfl
    rw [hr, h]
    rfl
  · intro x labels offsets procs h
    have hr : parseInstruction ["GetArg", x] labels offsets procs =
        (parseNatLit x).map Instruction.GetArg := rfl
    rw [hr, h]
    rfl
  · intro x labels offsets procs m h
    have hr : parseInstruction ["SetArg", x] labels offsets procs =
        (parseNatLit x).map Instruction.SetArg := rfl
    rw [hr, h]
    rfl
  · intro x labels offsets procs h
    have hr : parseInstruction ["SetArg", x] labels offsets procs =
        (parseNatLit x).map Instruction.SetArg := rfl
    rw [hr, h]
    rfl
  · intro pr labels offsets procs ds de b h1 h2
    have hr : parseInstruction ["Call", pr] labels offsets procs =
        (lookupLast procs pr).bind
          (fun pe => (offsets[pe.1 + 1]?).bind (fun b2 => some (Instruction.Call b2))) := rfl
    rw [hr, h1]
    simp [h2]
  · intro pr labels offsets procs h1
    have hr : parseInstruction ["Call", pr] labels offsets procs =
        (lookupLast procs pr).bind
          (fun pe => (offsets[pe.1 + 1]?).bind (fun b2 => some (Instruction.Call b2))) := rfl
    rw [hr, h1]
    rfl

/-- Witness for `operand_forms`: every clause at concrete tables. -/
theorem operand_forms_witness :
    parseInstruction ["Jump", "loop"] [("loop", 1)] [0, 9] [] = some (.Jump 9) ∧
    parseInstruction ["Jump", "missing"] [("loop", 1)] [0, 9] [] = none ∧
    parseInstruction ["JE", "loop"] [("loop", 1)] [0, 9] [] = some (.JE 9) ∧
    parseInstruction ["JE", "missing"] [("loop", 1)] [0, 9] [] = none ∧
    parseInstruction ["JNE", "loop"] [("loop", 1)] [0, 9] [] = some (.JNE 9) ∧
    parseInstruction ["JNE", "missing"] [("loop", 1)] [0, 9] [] = none ∧
    parseInstruction ["JGE", "loop"] [("loop", 1)] [0, 9] [] = some (.JGE 9) ∧
    parseInstruction ["JGE", "missing"] [("loop", 1)] [0, 9] [] = none ∧
    parseInstruction ["JLE", "loop"] [("loop", 1)] [0, 9] [] = some (.JLE 9) ∧
    parseInstruction ["JLE", "missing"] [("loop", 1)] [0, 9] [] = none ∧
    parseInstruction ["JGT", "loop"] [("loop", 1)] [0, 9] [] = some (.JGT 9) ∧
    parseInstruction ["JGT", "missing"] [("loop", 1)] [0, 9] [] = none ∧
    parseInstruction ["JLT", "loop"] [("loop", 1)] [0, 9] [] = some (.JLT 9) ∧
    parseInstruction ["JLT", "missing"] [("loop", 1)] [0, 9] [] = none ∧
    parseInstruction ["Get", "2"] [] [0] [] = some (.Get 2) ∧
    parseInstruction ["Get", "x2"] [] [0] [] = none ∧
    parseInstruction ["Set", "2"] [] [0] [] = some (.Set 2) ∧
    parseInstruction ["Set", "x2"] [] [0] [] = none ∧
    parseInstruction ["GetArg", "2"] [] [0] [] = some (.GetArg 2) ∧
    parseInstruction ["GetArg", "x2"] [] [0] [] = none ∧
    parseInstruction ["SetArg", "2"] [] [0] [] = some (.SetArg 2) ∧
    parseInstruction ["SetArg", "x2"] [] [0] [] = none ∧
    parseInstruction ["Call", "f"] [] [0, 9, 18] [("f", 0, 2)] = some (.Call 9) ∧
    parseInstruction ["Call", "g"] [] [0, 9, 18] [("f", 0, 2)] = none := by
  obtain ⟨hJumpP, hJumpN, hJEP, hJEN, hJNEP, hJNEN, hJGEP, hJGEN, hJLEP, hJLEN, hJGTP, hJGTN, hJLTP, hJLTN, hGetP, hGetN, hSetP, hSetN, hGetArgP, hGetArgN, hSetArgP, hSetArgN, hCallP, hCallN⟩ := operand_forms
  exact ⟨hJumpP "loop" [("loop", 1)] [0, 9] [] 1 9 (by decide) (by decide),
    hJumpN "missing" [("loop", 1)] [0, 9] [] (by decide),
    hJEP "loop" [("loop", 1)] [0, 9] [] 1 9 (by decide) (by decide),
    hJEN "missing" [("loop", 1)] [0, 9] [] (by decide),
    hJNEP "loop" [("loop", 1)] [0, 9] [] 1 9 (by decide) (by decide),
    hJNEN "missing" [("loop", 1)] [0, 9] [] (by decide),
    hJGEP "loop" [("loop", 1)] [0, 9] [] 1 9 (by decide) (by decide),
    hJGEN "missing" [("loop", 1)] [0, 9] [] (by decide),
    hJLEP "loop" [("loop", 1)] [0, 9] [] 1 9 (by decide) (by decide),
    hJLEN "missing" [("loop", 1)] [0, 9] [] (by decide),
    hJGTP "loop" [("loop", 1)] [0, 9] [] 1 9 (by decide) (by decide),
    hJGTN "missing" [("loop", 1)] [0, 9] [] (by decide),
    hJLTP "loop" [("loop", 1)] [0, 9] [] 1 9 (by decide) (by decide),
    hJLTN "missing" [("loop", 1)] [0, 9] [] (by decide),
    hGetP "2" [] [0] [] 2 (by decide),
    hGetN "x2" [] [0] [] (by decide),
    hSetP "2" [] [0] [] 2 (by decide),
    hSetN "x2" [] [0] [] (by decide),
    hGetArgP "2" [] [0] [] 2 (by decide),
    hGetArgN "x2" [] [0] [] (by decide),
    hSetArgP "2" [] [0] [] 2 (by decide),
    hSetArgN "x2" [] [0] [] (by decide),
    hCallP "f" [] [0, 9, 18] [("f", 0, 2)] 0 2 9 (by decide) (by decide),
    hCallN "g" [] [0, 9, 18] [("f", 0, 2)] (by decide)⟩

end TinyVm
